import Mathlib

/-!
Shallow embedding of the CSS selector builder from `src/05-objects-tasks.js`.

A `CSSSelector` instance is modelled by `SelState`; the mutable JS heap is a
list of such states, and a selector reference (as stored by `combineWith` in
the `combined` array) is an address (index) into that heap.  Instance methods
(`element`, `id`, `class`, `attr`, `pseudoClass`, `pseudoElement`,
`combineWith`) are translated statement by statement into a state-and-exception
monad `SelM` over the instance state, so that a JS `throw` is an `Except.error`
that leaves the state component at its value at the throw point.  `stringify`
is translated into `stringifyT`, which threads the heap through every child
`stringify()` call (so that the absence of heap mutation is a theorem, not a
typing accident) and consumes fuel, since the reference graph stored in
`combined` can be cyclic in JS.
-/

/-- State of one `CSSSelector` instance: the seven fields initialised by the
constructor, in source order.  `combined` stores (combinator, address) pairs;
the address models the JS object reference pushed by `combineWith`. -/
structure SelState where
  classes : List String
  attributes : List String
  pseudoClasses : List String
  combined : List (String × Nat)
  tag : String
  idValue : String
  pseudoElementValue : String
  deriving DecidableEq

/-- The constructor `new CSSSelector()`: all lists empty, all strings empty. -/
def SelState.init : SelState := ⟨[], [], [], [], "", "", ""⟩

/-- State-and-exception monad over one instance: a JS method body either
throws (keeping the instance state it had at the throw) or returns. -/
abbrev SelM (α : Type) : Type := SelState → Except String α × SelState

def SelM.bind {α β : Type} (m : SelM α) (f : α → SelM β) : SelM β := fun s =>
  match m s with
  | (Except.ok a, s') => f a s'
  | (Except.error e, s') => (Except.error e, s')

def SelM.get : SelM SelState := fun s => (Except.ok s, s)

def SelM.set (s' : SelState) : SelM Unit := fun _ => (Except.ok (), s')

def SelM.throw {α : Type} (e : String) : SelM α := fun s => (Except.error e, s)

/-- Message of the duplicate-singleton error (verbatim from the source,
including the typo "more then one"). -/
def dupMsg : String := "Element, id and pseudo-element should not occur more then one time inside the selector"

/-- Message of the out-of-order error (verbatim from the source). -/
def ordMsg : String := "Selector parts should be arranged in the following order: element, id, class, attribute, pseudo-class, pseudo-element"

/-- `CSSSelector.prototype.element`: duplicate check on truthiness of `tag`,
then the ordering check, then `this.tag = value`. -/
def SelState.element (value : String) : SelM Unit :=
  SelM.bind SelM.get fun s =>
  if s.tag ≠ "" then SelM.throw dupMsg
  else if s.idValue ≠ "" ∨ s.pseudoElementValue ≠ "" ∨ s.classes.length > 0 ∨ s.pseudoClasses.length > 0 ∨ s.attributes.length > 0 then SelM.throw ordMsg
  else SelM.set { s with tag := value }

/-- `CSSSelector.prototype.id`: duplicate check on truthiness of `idValue`,
then the ordering check, then `this.idValue = '#' + value`. -/
def SelState.id (value : String) : SelM Unit :=
  SelM.bind SelM.get fun s =>
  if s.idValue ≠ "" then SelM.throw dupMsg
  else if s.pseudoElementValue ≠ "" ∨ s.classes.length > 0 ∨ s.pseudoClasses.length > 0 ∨ s.attributes.length > 0 then SelM.throw ordMsg
  else SelM.set { s with idValue := "#" ++ value }

/-- `CSSSelector.prototype.pseudoElement`: duplicate check on truthiness of
`pseudoElementValue`, then `this.pseudoElementValue = '::' + value`. -/
def SelState.pseudoElement (value : String) : SelM Unit :=
  SelM.bind SelM.get fun s =>
  if s.pseudoElementValue ≠ "" then SelM.throw dupMsg
  else SelM.set { s with pseudoElementValue := "::" ++ value }

/-- `CSSSelector.prototype.class`: ordering check, then push `'.' + className`. -/
def SelState.class_ (className : String) : SelM Unit :=
  SelM.bind SelM.get fun s =>
  if s.pseudoElementValue ≠ "" ∨ s.attributes.length > 0 ∨ s.pseudoClasses.length > 0 then SelM.throw ordMsg
  else SelM.set { s with classes := s.classes ++ ["." ++ className] }

/-- `CSSSelector.prototype.pseudoClass`: ordering check, then push `':' + name`. -/
def SelState.pseudoClass (name : String) : SelM Unit :=
  SelM.bind SelM.get fun s =>
  if s.pseudoElementValue ≠ "" then SelM.throw ordMsg
  else SelM.set { s with pseudoClasses := s.pseudoClasses ++ [":" ++ name] }

/-- `CSSSelector.prototype.attr`: ordering check, then push `'[' + attr + ']'`. -/
def SelState.attr (a : String) : SelM Unit :=
  SelM.bind SelM.get fun s =>
  if s.pseudoElementValue ≠ "" ∨ s.pseudoClasses.length > 0 then SelM.throw ordMsg
  else SelM.set { s with attributes := s.attributes ++ [(("[" ++ a) ++ "]")] }

/-- `CSSSelector.prototype.combineWith`: unconditionally push the pair
`[combinator, selector]` (the selector is stored by reference/address). -/
def SelState.combineWith (combinator : String) (other : Nat) : SelM Unit :=
  SelM.bind SelM.get fun s =>
  SelM.set { s with combined := s.combined ++ [(combinator, other)] }

/-- The JS heap: selector instances addressed by list index. -/
abbrev Heap : Type := List SelState

/-- The loop `this.combined.forEach((selector) => { result += ` combinator
` + selector[1].stringify(); })`, with the child `stringify()` call `f`
threading the heap; an accumulator of `none` models a child call that did not
return (out of fuel or dangling address). -/
def combLoopF (f : Nat → Heap → Option String × Heap) :
    List (String × Nat) → Option String → Heap → Option String × Heap
  | [], acc, h => (acc, h)
  | c :: rest, acc, h =>
    let p := f c.2 h
    combLoopF f rest
      (match acc, p.1 with
        | some r, some sub => some (r ++ " " ++ c.1 ++ " " ++ sub)
        | _, _ => none) p.2

/-- `CSSSelector.prototype.stringify`, fuel-indexed: `tag + idValue`, then the
classes, attributes and pseudo-classes in insertion order, then one segment per
`combined` entry (recursing into the referenced selector), then
`pseudoElementValue`.  Returns `none` when the fuel runs out (modelling
non-termination) or an address dangles; threads the heap through. -/
def stringifyT : Nat → Nat → Heap → Option String × Heap
  | 0, _, h => (none, h)
  | fuel + 1, a, h =>
    match h.get? a with
    | none => (none, h)
    | some s =>
      let base := s.pseudoClasses.foldl (· ++ ·)
        (s.attributes.foldl (· ++ ·)
          (s.classes.foldl (· ++ ·) (s.tag ++ s.idValue)))
      let p := combLoopF (fun b h' => stringifyT fuel b h') s.combined (some base) h
      (p.1.map (fun r => r ++ s.pseudoElementValue), p.2)

/-- Result of `stringify()` on the selector at address `a` (its string, when
the call returns within `fuel` nested calls). -/
def stringifyH (h : Heap) (fuel a : Nat) : Option String := (stringifyT fuel a h).1

/-- Facade `cssSelectorBuilder.element`: allocates a fresh `CSSSelector` and
calls `element(value)` on it; the new instance gets the next free address. -/
def cssSelectorBuilder.element (h : Heap) (value : String) : Except String (Heap × Nat) :=
  match (SelState.element value) SelState.init with
  | (Except.ok _, s) => Except.ok (h ++ [s], h.length)
  | (Except.error e, _) => Except.error e

/-- Facade `cssSelectorBuilder.id`. -/
def cssSelectorBuilder.id (h : Heap) (value : String) : Except String (Heap × Nat) :=
  match (SelState.id value) SelState.init with
  | (Except.ok _, s) => Except.ok (h ++ [s], h.length)
  | (Except.error e, _) => Except.error e

/-- Facade `cssSelectorBuilder.class`. -/
def cssSelectorBuilder.class_ (h : Heap) (value : String) : Except String (Heap × Nat) :=
  match (SelState.class_ value) SelState.init with
  | (Except.ok _, s) => Except.ok (h ++ [s], h.length)
  | (Except.error e, _) => Except.error e

/-- Facade `cssSelectorBuilder.attr`. -/
def cssSelectorBuilder.attr (h : Heap) (value : String) : Except String (Heap × Nat) :=
  match (SelState.attr value) SelState.init with
  | (Except.ok _, s) => Except.ok (h ++ [s], h.length)
  | (Except.error e, _) => Except.error e

/-- Facade `cssSelectorBuilder.pseudoClass`. -/
def cssSelectorBuilder.pseudoClass (h : Heap) (value : String) : Except String (Heap × Nat) :=
  match (SelState.pseudoClass value) SelState.init with
  | (Except.ok _, s) => Except.ok (h ++ [s], h.length)
  | (Except.error e, _) => Except.error e

/-- Facade `cssSelectorBuilder.pseudoElement`. -/
def cssSelectorBuilder.pseudoElement (h : Heap) (value : String) : Except String (Heap × Nat) :=
  match (SelState.pseudoElement value) SelState.init with
  | (Except.ok _, s) => Except.ok (h ++ [s], h.length)
  | (Except.error e, _) => Except.error e

/-- Facade `cssSelectorBuilder.combine(selector1, combinator, selector2)`:
runs `selector1.combineWith(combinator, selector2)` and returns `selector1`
(the same address). -/
def cssSelectorBuilder.combine (h : Heap) (a : Nat) (combinator : String) (b : Nat) : Heap × Nat :=
  match h.get? a with
  | some s => (h.set a ((SelState.combineWith combinator b) s).2, a)
  | none => (h, a)

/-- The six fragment kinds, in the canonical order of the spec. -/
inductive FragKind : Type
  | element
  | id
  | cls
  | attr
  | pseudoClass
  | pseudoElement
  deriving DecidableEq

/-- Dispatch a fragment-adding method call by kind. -/
def FragKind.apply : FragKind → String → SelM Unit
  | .element, v => SelState.element v
  | .id, v => SelState.id v
  | .cls, v => SelState.class_ v
  | .attr, v => SelState.attr v
  | .pseudoClass, v => SelState.pseudoClass v
  | .pseudoElement, v => SelState.pseudoElement v

/-- Position of each kind in the canonical order
element < id < class < attribute < pseudo-class < pseudo-element. -/
def FragKind.rank : FragKind → Nat
  | .element => 0
  | .id => 1
  | .cls => 2
  | .attr => 3
  | .pseudoClass => 4
  | .pseudoElement => 5

/-- Whether a fragment of the given kind is present on the instance, presence
being what the source's guards test: string fields by truthiness (non-empty),
list fields by `length > 0`. -/
def SelState.has (s : SelState) : FragKind → Bool
  | .element => decide (s.tag ≠ "")
  | .id => decide (s.idValue ≠ "")
  | .cls => decide (s.classes.length > 0)
  | .attr => decide (s.attributes.length > 0)
  | .pseudoClass => decide (s.pseudoClasses.length > 0)
  | .pseudoElement => decide (s.pseudoElementValue ≠ "")

/-- All six kinds. -/
def FragKind.all : List FragKind := [.element, .id, .cls, .attr, .pseudoClass, .pseudoElement]

/-- Spec-side condition of the ordering constraint: some kind strictly later
in the canonical order than `k` is already present on `s` (equivalently, `k`
is strictly earlier than the most specific kind present). -/
def laterKindPresent (s : SelState) (k : FragKind) : Bool :=
  FragKind.all.any (fun k' => decide (k.rank < k'.rank) && s.has k')

/-- The source's duplicate-singleton guard for the method of kind `k`: the
method's own singleton field is truthy (only element, id and pseudo-element
have such a guard). -/
def dupGuard (s : SelState) : FragKind → Bool
  | .element => decide (s.tag ≠ "")
  | .id => decide (s.idValue ≠ "")
  | .pseudoElement => decide (s.pseudoElementValue ≠ "")
  | _ => false

theorem getq_set_eq {α : Type} : ∀ (l : List α) (i : Nat) (x : α), i < l.length → (l.set i x).get? i = some x
  | [], _, _, hlt => absurd hlt (by simp)
  | _ :: _, 0, _, _ => rfl
  | _ :: t, i + 1, x, hlt => getq_set_eq t i x (by simpa using hlt)

theorem getq_set_ne {α : Type} : ∀ (l : List α) (i j : Nat) (x : α), i ≠ j → (l.set i x).get? j = l.get? j
  | [], _, _, _, _ => rfl
  | _ :: _, 0, 0, _, hne => absurd rfl hne
  | _ :: _, 0, _ + 1, _, _ => rfl
  | _ :: _, _ + 1, 0, _, _ => rfl
  | _ :: t, i + 1, j + 1, x, hne => getq_set_ne t i j x (fun he => hne (by rw [he]))

theorem getq_lt {α : Type} : ∀ (l : List α) (i : Nat), i < l.length → ∃ x, l.get? i = some x
  | [], _, h => absurd h (by simp)
  | y :: _, 0, _ => ⟨y, rfl⟩
  | _ :: t, i + 1, h => getq_lt t i (by simpa using h)

theorem foldl_append_join (l : List String) : ∀ acc : String, l.foldl (· ++ ·) acc = acc ++ String.join l := by
  induction l with
  | nil => intro acc; simp [String.join]
  | cons x t ih =>
    intro acc
    have hj : String.join (x :: t) = x ++ String.join t := by
      show List.foldl (fun r s => r ++ s) "" (x :: t) = _
      rw [List.foldl_cons]
      have := ih ("" ++ x)
      simpa [String.empty_append] using this
    rw [List.foldl_cons, ih (acc ++ x), hj, String.append_assoc]

theorem join_cons (x : String) (t : List String) : String.join (x :: t) = x ++ String.join t := by
  show List.foldl (fun r s => r ++ s) "" (x :: t) = _
  rw [List.foldl_cons]
  have := foldl_append_join t ("" ++ x)
  simpa [String.empty_append] using this

theorem combLoopF_snd (f : Nat → Heap → Option String × Heap) (hf : ∀ b h, (f b h).2 = h) :
    ∀ (l : List (String × Nat)) (acc : Option String) (h : Heap), (combLoopF f l acc h).2 = h := by
  intro l
  induction l with
  | nil => intro acc h; rfl
  | cons c rest ih =>
    intro acc h
    simp only [combLoopF]
    rw [hf c.2 h]
    exact ih _ _

theorem stringifyT_snd : ∀ (fuel a : Nat) (h : Heap), (stringifyT fuel a h).2 = h := by
  intro fuel
  induction fuel with
  | zero => intro a h; rfl
  | succ fuel ih =>
    intro a h
    simp only [stringifyT]
    cases hg : h.get? a with
    | none => rfl
    | some s =>
      simp only []
      exact combLoopF_snd _ (fun b h' => ih b h') s.combined _ h

theorem combLoopF_some (f : Nat → Heap → Option String × Heap) (hf : ∀ b h, (f b h).2 = h) :
    ∀ (l : List (String × Nat)) (strs : List String) (acc : String) (h : Heap),
      l.map (fun c => (f c.2 h).1) = strs.map some →
      (combLoopF f l (some acc) h).1 =
        some (acc ++ String.join ((l.zip strs).map (fun p => " " ++ p.1.1 ++ " " ++ p.2))) := by
  intro l
  induction l with
  | nil =>
    intro strs acc h hm
    cases strs with
    | nil => simp [combLoopF, String.join]
    | cons _ _ => simp at hm
  | cons c rest ih =>
    intro strs acc h hm
    cases strs with
    | nil => simp at hm
    | cons str strs' =>
      simp only [List.map_cons, List.cons.injEq] at hm
      obtain ⟨h1, h2⟩ := hm
      simp only [combLoopF]
      rw [hf c.2 h, h1]
      rw [ih strs' _ h h2]
      rw [List.zip_cons_cons, List.map_cons, join_cons]
      simp [String.append_assoc]

theorem combLoopF_isSome (f : Nat → Heap → Option String × Heap) (hf : ∀ b h, (f b h).2 = h) :
    ∀ (l : List (String × Nat)) (acc : String) (h : Heap),
      (∀ cb ∈ l, ((f cb.2 h).1).isSome = true) →
      ((combLoopF f l (some acc) h).1).isSome = true := by
  intro l
  induction l with
  | nil => intro acc h _; rfl
  | cons c rest ih =>
    intro acc h hall
    obtain ⟨sub, hsub⟩ := Option.isSome_iff_exists.mp (hall c (by simp))
    simp only [combLoopF]
    rw [hf c.2 h, hsub]
    exact ih _ h (fun cb hcb => hall cb (by simp [hcb]))

/-- C1: `stringify()` returns exactly the concatenation of `tag`, `idValue`,
the classes in insertion order, the attributes in insertion order, the
pseudo-classes in insertion order, then one segment per `combined` entry in
append order, with `pseudoElementValue` last overall, and no other characters
(stated for any fuel large enough that every combined child returns). -/
theorem stringify_concatenation (h : Heap) (fuel a : Nat) (s : SelState) (strs : List String)
    (hget : h.get? a = some s)
    (hchildren : s.combined.map (fun c => stringifyH h fuel c.2) = strs.map some) :
    stringifyH h (fuel + 1) a =
      some (s.tag ++ s.idValue ++ String.join s.classes ++ String.join s.attributes
        ++ String.join s.pseudoClasses
        ++ String.join ((s.combined.zip strs).map (fun p => " " ++ p.1.1 ++ " " ++ p.2))
        ++ s.pseudoElementValue) := by
  simp only [stringifyH] at hchildren ⊢
  simp only [stringifyT, hget]
  rw [foldl_append_join, foldl_append_join, foldl_append_join]
  rw [combLoopF_some (fun b h' => stringifyT fuel b h') (fun b h' => stringifyT_snd fuel b h')
    s.combined strs _ h hchildren]
  simp [String.append_assoc]

def c1h : Heap :=
  [{ classes := [".c1", ".c2"], attributes := ["[x]"], pseudoClasses := [":h"],
     combined := [(">", 1)], tag := "a", idValue := "#i", pseudoElementValue := "::p" },
   { SelState.init with tag := "b" }]

/-- Witness for C1 at a concrete selector carrying every fragment kind and one
combined entry. -/
theorem stringify_concatenation_witness :
    stringifyH c1h 2 0 = some "a#i.c1.c2[x]:h > b::p" :=
  (stringify_concatenation c1h 1 0
    { classes := [".c1", ".c2"], attributes := ["[x]"], pseudoClasses := [":h"],
      combined := [(">", 1)], tag := "a", idValue := "#i", pseudoElementValue := "::p" }
    ["b"] rfl (by decide)).trans (by decide)

def c2state : SelState := { SelState.init with tag := "a", idValue := "#x" }

/-- C2 counterexample: on an instance holding a tag and an id, `element` is
strictly earlier than the most specific present kind (id), yet the call throws
the duplicate-singleton error, not the out-of-order error. -/
theorem element_dup_precedes_order :
    laterKindPresent c2state FragKind.element = true ∧
    ((FragKind.apply FragKind.element "b") c2state).1 = Except.error dupMsg ∧
    dupMsg ≠ ordMsg :=
  ⟨by decide, rfl, by decide⟩

/-- C2 amended: a fragment-adding call whose kind is strictly earlier in the
canonical order than some kind already present throws the out-of-order error,
except that `element`, `id` and `pseudoElement` check their own singleton slot
first and throw the duplicate-singleton error when it is truthy; the
out-of-order error is raised only when a strictly later kind is present. -/
theorem frag_order_error (k : FragKind) (v : String) (s : SelState) :
    (laterKindPresent s k = true → dupGuard s k = false →
      ((FragKind.apply k v) s).1 = Except.error ordMsg) ∧
    (dupGuard s k = true → ((FragKind.apply k v) s).1 = Except.error dupMsg) ∧
    (((FragKind.apply k v) s).1 = Except.error ordMsg → laterKindPresent s k = true) := by
  cases k
  case element =>
    simp only [FragKind.apply, SelState.element, SelM.bind, SelM.get, SelM.throw, SelM.set]
    by_cases h1 : s.tag ≠ ""
    · simp only [if_pos h1]
      refine ⟨fun _ hd => ?_, fun _ => rfl, fun habs => ?_⟩
      · simp [dupGuard, h1] at hd
      · exact absurd (Except.error.inj habs) (by decide)
    · simp only [if_neg h1]
      by_cases h2 : s.idValue ≠ "" ∨ s.pseudoElementValue ≠ "" ∨ s.classes.length > 0 ∨ s.pseudoClasses.length > 0 ∨ s.attributes.length > 0
      · simp only [if_pos h2]
        refine ⟨fun _ _ => rfl, fun hd => ?_, fun _ => ?_⟩
        · simp [dupGuard] at hd; exact absurd hd h1
        · simp [laterKindPresent, FragKind.all, SelState.has, FragKind.rank]; tauto
      · simp only [if_neg h2]
        refine ⟨fun hl _ => ?_, fun hd => ?_, fun habs => ?_⟩
        · simp [laterKindPresent, FragKind.all, SelState.has, FragKind.rank] at hl; tauto
        · simp [dupGuard] at hd; exact absurd hd h1
        · simp [SelM.set] at habs
  case id =>
    simp only [FragKind.apply, SelState.id, SelM.bind, SelM.get, SelM.throw, SelM.set]
    by_cases h1 : s.idValue ≠ ""
    · simp only [if_pos h1]
      refine ⟨fun _ hd => ?_, fun _ => rfl, fun habs => ?_⟩
      · simp [dupGuard, h1] at hd
      · exact absurd (Except.error.inj habs) (by decide)
    · simp only [if_neg h1]
      by_cases h2 : s.pseudoElementValue ≠ "" ∨ s.classes.length > 0 ∨ s.pseudoClasses.length > 0 ∨ s.attributes.length > 0
      · simp only [if_pos h2]
        refine ⟨fun _ _ => rfl, fun hd => ?_, fun _ => ?_⟩
        · simp [dupGuard] at hd; exact absurd hd h1
        · simp [laterKindPresent, FragKind.all, SelState.has, FragKind.rank]; tauto
      · simp only [if_neg h2]
        refine ⟨fun hl _ => ?_, fun hd => ?_, fun habs => ?_⟩
        · simp [laterKindPresent, FragKind.all, SelState.has, FragKind.rank] at hl; tauto
        · simp [dupGuard] at hd; exact absurd hd h1
        · simp [SelM.set] at habs
  case cls =>
    simp only [FragKind.apply, SelState.class_, SelM.bind, SelM.get, SelM.throw, SelM.set]
    by_cases h2 : s.pseudoElementValue ≠ "" ∨ s.attributes.length > 0 ∨ s.pseudoClasses.length > 0
    · simp only [if_pos h2]
      refine ⟨fun _ _ => rfl, fun hd => ?_, fun _ => ?_⟩
      · simp [dupGuard] at hd
      · simp [laterKindPresent, FragKind.all, SelState.has, FragKind.rank]; tauto
    · simp only [if_neg h2]
      refine ⟨fun hl _ => ?_, fun hd => ?_, fun habs => ?_⟩
      · simp [laterKindPresent, FragKind.all, SelState.has, FragKind.rank] at hl; tauto
      · simp [dupGuard] at hd
      · simp [SelM.set] at habs
  case attr =>
    simp only [FragKind.apply, SelState.attr, SelM.bind, SelM.get, SelM.throw, SelM.set]
    by_cases h2 : s.pseudoElementValue ≠ "" ∨ s.pseudoClasses.length > 0
    · simp only [if_pos h2]
      refine ⟨fun _ _ => rfl, fun hd => ?_, fun _ => ?_⟩
      · simp [dupGuard] at hd
      · simp [laterKindPresent, FragKind.all, SelState.has, FragKind.rank]; tauto
    · simp only [if_neg h2]
      refine ⟨fun hl _ => ?_, fun hd => ?_, fun habs => ?_⟩
      · simp [laterKindPresent, FragKind.all, SelState.has, FragKind.rank] at hl; tauto
      · simp [dupGuard] at hd
      · simp [SelM.set] at habs
  case pseudoClass =>
    simp only [FragKind.apply, SelState.pseudoClass, SelM.bind, SelM.get, SelM.throw, SelM.set]
    by_cases h2 : s.pseudoElementValue ≠ ""
    · simp only [if_pos h2]
      refine ⟨fun _ _ => rfl, fun hd => ?_, fun _ => ?_⟩
      · simp [dupGuard] at hd
      · simp [laterKindPresent, FragKind.all, SelState.has, FragKind.rank]; tauto
    · simp only [if_neg h2]
      refine ⟨fun hl _ => ?_, fun hd => ?_, fun habs => ?_⟩
      · simp [laterKindPresent, FragKind.all, SelState.has, FragKind.rank] at hl; tauto
      · simp [dupGuard] at hd
      · simp [SelM.set] at habs
  case pseudoElement =>
    simp only [FragKind.apply, SelState.pseudoElement, SelM.bind, SelM.get, SelM.throw, SelM.set]
    by_cases h1 : s.pseudoElementValue ≠ ""
    · simp only [if_pos h1]
      refine ⟨fun hl _ => ?_, fun _ => rfl, fun habs => ?_⟩
      · simp [laterKindPresent, FragKind.all, SelState.has, FragKind.rank] at hl
      · exact absurd (Except.error.inj habs) (by decide)
    · simp only [if_neg h1]
      refine ⟨fun hl _ => ?_, fun hd => ?_, fun habs => ?_⟩
      · simp [laterKindPresent, FragKind.all, SelState.has, FragKind.rank] at hl
      · simp [dupGuard] at hd; exact absurd hd h1
      · simp [SelM.set] at habs

/-- Witness for the amended C2: adding an element to an instance that already
holds a class throws the out-of-order error. -/
theorem frag_order_error_witness :
    ((FragKind.apply FragKind.element "b") { SelState.init with classes := [".c"] }).1 = Except.error ordMsg :=
  (frag_order_error FragKind.element "b" { SelState.init with classes := [".c"] }).1 (by decide) (by decide)

theorem append_ne_empty_of_left (p v : String) (hp : 0 < p.length) : p ++ v ≠ "" := by
  intro he
  have hlen := congrArg String.length he
  rw [String.length_append] at hlen
  have h0 : p.length + v.length = 0 := by simpa using hlen
  omega

/-- C3 counterexample: after `element('')`, a second `element` call on the
same instance does not throw the duplicate-singleton error — it succeeds and
stores the new tag, because the guard tests string truthiness and the empty
tag is falsy. -/
theorem element_twice_after_empty_ok :
    ((SelState.element "") SelState.init).1 = Except.ok () ∧
    ((SelState.element "b") (((SelState.element "") SelState.init).2)).1 = Except.ok () ∧
    ((SelState.element "b") (((SelState.element "") SelState.init).2)).2 = { SelState.init with tag := "b" } :=
  ⟨rfl, rfl, by decide⟩

/-- C3 amended: a second `id` or `pseudoElement` call on the same instance
always throws the duplicate-singleton error (their stored values carry a
sigil, hence are never falsy); a second `element` call throws it exactly when
the first call stored a non-empty name. -/
theorem singleton_second_call (s : SelState) (v w : String) :
    (((SelState.id v) s).1 = Except.ok () →
      ((SelState.id w) (((SelState.id v) s).2)).1 = Except.error dupMsg) ∧
    (((SelState.pseudoElement v) s).1 = Except.ok () →
      ((SelState.pseudoElement w) (((SelState.pseudoElement v) s).2)).1 = Except.error dupMsg) ∧
    (((SelState.element v) s).1 = Except.ok () →
      ((SelState.element w) (((SelState.element v) s).2)).1 =
        (if v = "" then Except.ok () else Except.error dupMsg)) := by
  refine ⟨fun h1 => ?_, fun h1 => ?_, fun h1 => ?_⟩
  · simp only [SelState.id, SelM.bind, SelM.get, SelM.throw, SelM.set] at h1 ⊢
    by_cases ha : s.idValue ≠ ""
    · simp [if_pos ha, SelM.throw] at h1
    · simp only [if_neg ha] at h1 ⊢
      by_cases hb : s.pseudoElementValue ≠ "" ∨ s.classes.length > 0 ∨ s.pseudoClasses.length > 0 ∨ s.attributes.length > 0
      · simp [if_pos hb, SelM.throw] at h1
      · simp only [if_neg hb] at h1 ⊢
        rw [if_pos (by simpa using append_ne_empty_of_left "#" v (by decide))]
        rfl
  · simp only [SelState.pseudoElement, SelM.bind, SelM.get, SelM.throw, SelM.set] at h1 ⊢
    by_cases ha : s.pseudoElementValue ≠ ""
    · simp [if_pos ha, SelM.throw] at h1
    · simp only [if_neg ha] at h1 ⊢
      rw [if_pos (by simpa using append_ne_empty_of_left "::" v (by decide))]
      rfl
  · simp only [SelState.element, SelM.bind, SelM.get, SelM.throw, SelM.set] at h1 ⊢
    by_cases ha : s.tag ≠ ""
    · simp [if_pos ha, SelM.throw] at h1
    · simp only [if_neg ha] at h1 ⊢
      by_cases hb : s.idValue ≠ "" ∨ s.pseudoElementValue ≠ "" ∨ s.classes.length > 0 ∨ s.pseudoClasses.length > 0 ∨ s.attributes.length > 0
      · simp [if_pos hb, SelM.throw] at h1
      · simp only [if_neg hb] at h1 ⊢
        by_cases hv : v = ""
        · rw [if_pos hv]
          subst hv
          rw [if_neg (by simp [SelM.set]), if_neg (by simpa [SelM.set] using hb)]
          rfl
        · rw [if_neg hv, if_pos (by simpa using hv)]
          rfl

/-- Witness for the amended C3: two `id` calls on one instance, the second
throwing the duplicate-singleton error. -/
theorem singleton_second_call_witness :
    ((SelState.id "y") (((SelState.id "x") SelState.init).2)).1 = Except.error dupMsg :=
  (singleton_second_call SelState.init "x" "y").1 rfl

/-- C9: singleton presence is tested by string truthiness: after
`element('')` a further `element(v)` does not throw and overwrites the tag
with `v`, while `id('')` and `pseudoElement('')` store the bare sigils `#`
and `::`, which do trigger the duplicate guard on a second call. -/
theorem truthiness_guard (v w : String) :
    ((SelState.element v) (((SelState.element "") SelState.init).2)).1 = Except.ok () ∧
    ((SelState.element v) (((SelState.element "") SelState.init).2)).2 = { SelState.init with tag := v } ∧
    (((SelState.id "") SelState.init).2).idValue = "#" ∧
    ((SelState.id w) (((SelState.id "") SelState.init).2)).1 = Except.error dupMsg ∧
    (((SelState.pseudoElement "") SelState.init).2).pseudoElementValue = "::" ∧
    ((SelState.pseudoElement w) (((SelState.pseudoElement "") SelState.init).2)).1 = Except.error dupMsg :=
  ⟨rfl, rfl, rfl, rfl, rfl, rfl⟩

def c4h : Heap := [{ SelState.init with tag := "a", combined := [(" ", 1)] }, { SelState.init with tag := "b" }]

/-- C4 counterexample: with the space combinator the rendered separator
between the operands is three adjacent spaces (flanking space, combinator
space, flanking space), not two: the output is `"a   b"`. -/
theorem space_combinator_three_spaces :
    stringifyH c4h 2 0 = some "a   b" ∧ "a   b" ≠ "a  b" :=
  ⟨rfl, by decide⟩

theorem three_spaces (y : String) : " " ++ (" " ++ (" " ++ y)) = "   " ++ y := by
  rw [← String.append_assoc, ← String.append_assoc]
  exact congrArg (fun z => z ++ y) (by decide)

/-- C4 amended: every combined entry renders as one space, the combinator
token, one space, then the right operand's stringification; in particular,
when the combinator is itself a single space, the rendered separator between
the operands consists of exactly three adjacent spaces. -/
theorem combined_segment_rendering (h : Heap) (fuel a b : Nat) (s : SelState) (c str : String)
    (hget : h.get? a = some s) (hcomb : s.combined = [(c, b)])
    (hchild : stringifyH h fuel b = some str) :
    stringifyH h (fuel + 1) a =
      some (s.tag ++ s.idValue ++ String.join s.classes ++ String.join s.attributes
        ++ String.join s.pseudoClasses ++ " " ++ c ++ " " ++ str ++ s.pseudoElementValue) ∧
    (c = " " →
      stringifyH h (fuel + 1) a =
        some (s.tag ++ s.idValue ++ String.join s.classes ++ String.join s.attributes
          ++ String.join s.pseudoClasses ++ "   " ++ str ++ s.pseudoElementValue)) := by
  have h1 : stringifyH h (fuel + 1) a =
      some (s.tag ++ s.idValue ++ String.join s.classes ++ String.join s.attributes
        ++ String.join s.pseudoClasses
        ++ String.join ((s.combined.zip [str]).map (fun p => " " ++ p.1.1 ++ " " ++ p.2))
        ++ s.pseudoElementValue) := by
    simp only [stringifyH] at hchild ⊢
    simp only [stringifyT, hget]
    rw [foldl_append_join, foldl_append_join, foldl_append_join]
    rw [combLoopF_some (fun b' h' => stringifyT fuel b' h') (fun b' h' => stringifyT_snd fuel b' h')
      s.combined [str] _ h (by simp [hcomb, hchild])]
    simp [String.append_assoc]
  rw [hcomb] at h1
  simp only [List.zip_cons_cons, List.zip_nil_right, List.map_cons, List.map_nil] at h1
  constructor
  · rw [h1, join_cons]
    simp [String.join, String.append_assoc]
  · intro hc
    subst hc
    rw [h1, join_cons]
    simp [String.join, String.append_assoc, three_spaces]

def c4hG : Heap := [{ SelState.init with tag := "a", combined := [(">", 1)] }, { SelState.init with tag := "b" }]

/-- Witness for the amended C4 at the combinator `>`. -/
theorem combined_segment_rendering_witness :
    stringifyH c4hG 2 0 = some "a > b" :=
  ((combined_segment_rendering c4hG 1 0 1 { SelState.init with tag := "a", combined := [(">", 1)] }
    ">" "b" rfl rfl rfl).1).trans (by decide)

/-- C5: `combine` appends the pair (combinator, right) to the left operand's
combination list, leaves every other selector untouched, and returns the very
same left instance (the same address), never throwing — no ordering or
singleton constraint applies; every other facade entry point allocates a
fresh selector seeded with exactly the one requested fragment. -/
theorem builder_contract (h : Heap) (v c : String) (a b : Nat) (s : SelState)
    (hget : h.get? a = some s) :
    cssSelectorBuilder.combine h a c b = (h.set a { s with combined := s.combined ++ [(c, b)] }, a) ∧
    cssSelectorBuilder.element h v = Except.ok (h ++ [{ SelState.init with tag := v }], h.length) ∧
    cssSelectorBuilder.id h v = Except.ok (h ++ [{ SelState.init with idValue := "#" ++ v }], h.length) ∧
    cssSelectorBuilder.class_ h v = Except.ok (h ++ [{ SelState.init with classes := ["." ++ v] }], h.length) ∧
    cssSelectorBuilder.attr h v = Except.ok (h ++ [{ SelState.init with attributes := ["[" ++ v ++ "]"] }], h.length) ∧
    cssSelectorBuilder.pseudoClass h v = Except.ok (h ++ [{ SelState.init with pseudoClasses := [":" ++ v] }], h.length) ∧
    cssSelectorBuilder.pseudoElement h v = Except.ok (h ++ [{ SelState.init with pseudoElementValue := "::" ++ v }], h.length) := by
  refine ⟨?_, rfl, rfl, rfl, rfl, rfl, rfl⟩
  have hget' : h[a]? = some s := by rw [← List.get?_eq_getElem?]; exact hget
  simp [cssSelectorBuilder.combine, hget', SelState.combineWith, SelM.bind, SelM.get, SelM.set]

/-- Witness for C5: combining a one-selector heap with itself as right
operand appends the pair and returns address 0. -/
theorem builder_contract_witness :
    cssSelectorBuilder.combine [SelState.init] 0 "+" 0 = ([{ SelState.init with combined := [("+", 0)] }], 0) :=
  ((builder_contract [SelState.init] "x" "+" 0 0 SelState.init rfl).1).trans (by decide)

/-- C6: error atomicity — whenever a fragment-adding call throws, the
instance state after the call is exactly the state before it (every guard
runs before any field is assigned). -/
theorem frag_error_atomic (k : FragKind) (v : String) (s : SelState) (e : String)
    (herr : ((FragKind.apply k v) s).1 = Except.error e) :
    ((FragKind.apply k v) s).2 = s := by
  cases k <;>
    simp only [FragKind.apply, SelState.element, SelState.id, SelState.class_, SelState.attr,
      SelState.pseudoClass, SelState.pseudoElement, SelM.bind, SelM.get] at herr ⊢ <;>
    revert herr <;>
    split <;> (try split) <;> intro herr <;>
    first
      | rfl
      | simp [SelM.set] at herr

/-- Witness for C6: a failing `element` call on an instance holding a class
leaves the state unchanged. -/
theorem frag_error_atomic_witness :
    ((FragKind.apply FragKind.element "b") { SelState.init with classes := [".c"] }).2 =
      { SelState.init with classes := [".c"] } :=
  frag_error_atomic FragKind.element "b" { SelState.init with classes := [".c"] } ordMsg rfl

def c7h0 : Heap := [{ SelState.init with tag := "a" }, { SelState.init with tag := "b" }]

def c7h3 : Heap := [{ SelState.init with tag := "a", combined := [("+", 1)] }, { SelState.init with tag := "b" }]

/-- C7: `combine` stores a reference (the address) to the right operand, not
its string: after combining, mutating the right operand (adding `.x` to
selector 1) changes what the left operand's `stringify()` returns. -/
theorem combine_defers_stringification :
    cssSelectorBuilder.combine c7h0 0 "+" 1 = (c7h3, 0) ∧
    stringifyH c7h3 2 0 = some "a + b" ∧
    ((SelState.class_ "x") { SelState.init with tag := "b" }).1 = Except.ok () ∧
    stringifyH (c7h3.set 1 (((SelState.class_ "x") { SelState.init with tag := "b" }).2)) 2 0 = some "a + b.x" :=
  ⟨by decide, rfl, rfl, rfl⟩

/-- C8: `stringify()` mutates nothing — the heap it hands back is the heap it
was given (for the instance itself and for every selector reachable through
`combined`) — and an immediately repeated call returns the identical result. -/
theorem stringify_pure (fuel a : Nat) (h : Heap) :
    (stringifyT fuel a h).2 = h ∧
    (stringifyT fuel a ((stringifyT fuel a h).2)).1 = (stringifyT fuel a h).1 := by
  refine ⟨stringifyT_snd fuel a h, ?_⟩
  rw [stringifyT_snd fuel a h]

theorem stringify_terminates_aux :
    ∀ (n : Nat) (h : Heap) (rk : Nat → Nat),
      (∀ a s, h.get? a = some s → ∀ cb ∈ s.combined, rk cb.2 < rk a ∧ cb.2 < h.length) →
      ∀ a, a < h.length → rk a < n → ((stringifyT n a h).1).isSome = true := by
  intro n
  induction n with
  | zero => intro h rk hcl a ha hrk; omega
  | succ n ih =>
    intro h rk hcl a ha hrk
    obtain ⟨s, hs⟩ := getq_lt h a ha
    simp only [stringifyT, hs]
    rw [Option.isSome_map']
    exact combLoopF_isSome _ (fun b h' => stringifyT_snd n b h') s.combined _ h
      (fun cb hcb => ih h rk hcl cb.2 ((hcl a s hs cb hcb).2)
        (by have := (hcl a s hs cb hcb).1; omega))

def hSelfPre : Heap := [SelState.init]

def hSelf : Heap := [{ SelState.init with combined := [(" ", 0)] }]

theorem selfloop_diverges : ∀ fuel, stringifyH hSelf fuel 0 = none := by
  intro fuel
  induction fuel with
  | zero => rfl
  | succ fuel ih =>
    simp only [stringifyH] at ih ⊢
    have hp : stringifyT fuel 0 hSelf = (none, hSelf) := by
      have h2 := stringifyT_snd fuel 0 hSelf
      cases hq : stringifyT fuel 0 hSelf with
      | mk o hh => rw [hq] at ih h2; simp_all
    have hg : hSelf[0]? = some (⟨[], [], [], [(" ", 0)], "", "", ""⟩ : SelState) := rfl
    simp [stringifyT, hg, combLoopF, hp]

/-- C10: `stringify()` terminates on every heap whose combined-reference
graph is acyclic (witnessed by a rank function decreasing along references):
rank-plus-one nested calls suffice; `combineWith` accepts any right operand,
including the receiver itself, and on that self-referential selector
`stringify()` returns within no amount of fuel — it does not terminate. -/
theorem stringify_cycle_behavior :
    (∀ (h : Heap) (rk : Nat → Nat),
      (∀ a s, h.get? a = some s → ∀ cb ∈ s.combined, rk cb.2 < rk a ∧ cb.2 < h.length) →
      ∀ a, a < h.length → (stringifyH h (rk a + 1) a).isSome = true) ∧
    cssSelectorBuilder.combine hSelfPre 0 " " 0 = (hSelf, 0) ∧
    (∀ fuel, stringifyH hSelf fuel 0 = none) := by
  refine ⟨?_, by decide, selfloop_diverges⟩
  intro h rk hcl a ha
  exact stringify_terminates_aux (rk a + 1) h rk hcl a ha (by omega)

def c10hW : Heap := [{ SelState.init with tag := "p", combined := [("~", 1)] }, { SelState.init with tag := "q" }]

def rkW : Nat → Nat := fun a => 2 - a

/-- Witness for C10 on a concrete acyclic two-selector heap. -/
theorem stringify_cycle_behavior_witness :
    (stringifyH c10hW 3 0).isSome = true :=
  stringify_cycle_behavior.1 c10hW rkW
    (by
      intro a s hget cb hcb
      match a with
      | 0 =>
        have hs : s = { SelState.init with tag := "p", combined := [("~", 1)] } := by
          have h0 : c10hW.get? 0 = some { SelState.init with tag := "p", combined := [("~", 1)] } := rfl
          rw [h0] at hget
          exact (Option.some.inj hget).symm
        subst hs
        have hc : cb = ("~", 1) := by simpa using hcb
        subst hc
        exact ⟨by decide, by decide⟩
      | 1 =>
        have h1 : c10hW.get? 1 = some { SelState.init with tag := "q" } := rfl
        rw [h1] at hget
        have hs : s = { SelState.init with tag := "q" } := (Option.some.inj hget).symm
        subst hs
        simp [SelState.init] at hcb
      | a + 2 =>
        have hn : c10hW.get? (a + 2) = none := rfl
        rw [hn] at hget
        exact absurd hget (by simp))
    0 (by decide)
